import Mathlib

/-!
Verification of the `sphinx_doc` documentation post-processor
(`src/sphinx_doc/autodoc.py`) against its natural-language specification.

The development shallowly embeds the program's data model and operations:

* `TypeExpr` — the recursive type-expression model (plain, annotated,
  optional, union), following the spec's data model for the `TypeLike`
  values manipulated by the code.
* `pythonTypeToStr` — the canonical type renderer (the external
  `strong_typing.name.python_type_to_str` with `use_union_operator=True`),
  modelled from the spec.
* `typeTransformCall` — `TypeTransform.__call__`, the type-substitution
  mapper.
* `processObject` — `DocstringProcessor._process_object`, the docstring
  field processor, together with `transformField`
  (`DocstringProcessor._transform_field`) and `transformColumn`
  (`DocstringProcessor._transform_column`).
* `processCodeblock` — `DocstringProcessor.process_codeblock`, the
  Markdown-fence to Sphinx-directive reformatter.
* `skip_member` — the member visibility filter.
-/

/-- Modelled from the spec: the structured type expressions handled by the
code (`TypeLike` values of the external `strong_typing` package, probed by
`is_type_annotated` / `is_type_optional` / `is_type_union`).  Per the spec's
data model, the variants are: plain type, annotated type (base type plus
auxiliary metadata objects), optional type (wrapping exactly one inner
type), and union type (ordered member list).  Metadata objects are opaque
to the program, so they are represented by strings. -/
inductive TypeExpr where
  | plain (name : String) : TypeExpr
  | annotated (base : TypeExpr) (metas : List String) : TypeExpr
  | optional (inner : TypeExpr) : TypeExpr
  | union (members : List TypeExpr) : TypeExpr

/-- Discriminator: is the expression an annotated type? -/
def TypeExpr.isAnnotated : TypeExpr → Bool
  | .annotated _ _ => true
  | _ => false

/-- Discriminator: is the expression an optional type? -/
def TypeExpr.isOptional : TypeExpr → Bool
  | .optional _ => true
  | _ => false

mutual

/-- Modelled from the spec: the canonical type renderer
(`strong_typing.name.python_type_to_str` with `use_union_operator=True`,
which is not part of this repository).  Per the spec, rendering uses the
union-operator style (`A | B` rather than a wrapped-union spelling), is
deterministic, and yields the canonical string used both for
substitution-table lookup and for display.  An annotated type shares the
canonical string of its base type (the spec requires a table entry for the
base type `X` to fire on `Annotated[X, meta]`, short-circuiting the
recursion), an optional type renders as the inner type followed by
`" | None"`, and a union renders its members joined by `" | "`. -/
def pythonTypeToStr : TypeExpr → String
  | .plain n => n
  | .annotated base _ => pythonTypeToStr base
  | .optional inner => pythonTypeToStr inner ++ " | None"
  | .union members => String.intercalate " | " (pythonTypeToStrList members)

/-- Renders each member of a union in order. -/
def pythonTypeToStrList : List TypeExpr → List String
  | [] => []
  | t :: ts => pythonTypeToStr t :: pythonTypeToStrList ts

end

/-- `TypeTransform.__init__`: the substitution table is keyed by the
canonical string form of each source type. -/
def mkTypeTransform (entries : List (TypeExpr × TypeExpr)) :
    List (String × TypeExpr) :=
  entries.map (fun e => (pythonTypeToStr e.1, e.2))

mutual

/-- `TypeTransform.__call__`: first look the canonical string form of the
argument up in the substitution table and return the mapped replacement
verbatim on a hit; otherwise recurse structurally into annotated, optional
and union compositions and return every other shape unchanged.  (The
source performs the table lookup once before inspecting the shape; here the
identical lookup is repeated in each shape's branch, which is the same
function.) -/
def typeTransformCall (table : List (String × TypeExpr)) : TypeExpr → TypeExpr
  | .plain n =>
    match table.lookup (pythonTypeToStr (.plain n)) with
    | some m => m
    | none => .plain n
  | .annotated base metas =>
    match table.lookup (pythonTypeToStr (.annotated base metas)) with
    | some m => m
    | none => .annotated (typeTransformCall table base) metas
  | .optional inner =>
    match table.lookup (pythonTypeToStr (.optional inner)) with
    | some m => m
    | none => .optional (typeTransformCall table inner)
  | .union members =>
    match table.lookup (pythonTypeToStr (.union members)) with
    | some m => m
    | none => .union (typeTransformCallList table members)

/-- Substitutes each member of a union in order
(`Union[tuple(self(member_type) for member_type in union_types)]`). -/
def typeTransformCallList (table : List (String × TypeExpr)) :
    List TypeExpr → List TypeExpr
  | [] => []
  | t :: ts => typeTransformCall table t :: typeTransformCallList table ts

end

/-- `DocstringProcessor._python_type_to_str`: substitution followed by
rendering. -/
def pythonTypeToStrWithSubst (table : List (String × TypeExpr))
    (t : TypeExpr) : String :=
  pythonTypeToStr (typeTransformCall table t)

/-- The `Symbols` configuration: two display glyphs with the source's
default values. -/
structure Symbols where
  primary_key : String := "🔑"
  unique_constraint : String := "◉"

/-- The default glyph configuration (`Symbols()`). -/
def defaultSymbols : Symbols := {}

/-- Modelled from the spec: the per-field property record produced by the
external `pysqlsync` helper `get_field_properties`, carrying the plain
field type together with the nullability, primary-key and uniqueness
flags used by `DocstringProcessor._transform_column`. -/
structure FieldProperties where
  field_type : TypeExpr
  nullable : Bool
  is_primary : Bool
  is_unique : Bool

/-- `DocstringProcessor._transform_field`: the rendered (substituted) type
string together with the unchanged description. -/
def transformField (table : List (String × TypeExpr)) (field_type : TypeExpr)
    (text : String) : String × String :=
  (pythonTypeToStrWithSubst table field_type, text)

/-- `DocstringProcessor._transform_column`: wrap the field type in optional
when the column is nullable, render it with substitutions, and prefix the
description with the primary-key glyph and then the unique-constraint glyph
when the respective flags are set, the pieces joined by single spaces. -/
def transformColumn (symbols : Symbols) (table : List (String × TypeExpr))
    (prop : FieldProperties) (text : String) : String × String :=
  let source_type : TypeExpr :=
    if prop.nullable then .optional prop.field_type else prop.field_type
  let field_type := pythonTypeToStrWithSubst table source_type
  let pieces : List String :=
    (if prop.is_primary then [symbols.primary_key] else []) ++
      (if prop.is_unique then [symbols.unique_constraint] else []) ++ [text]
  (field_type, String.intercalate " " pieces)

/-- The message of the `MissingFieldError` raised by
`DocstringProcessor._process_object`. -/
def missingFieldMessage (field_name name : String) : String :=
  "param `" ++ field_name ++ "` is not declared as a field in the class `"
    ++ name ++ "`"

/-- `MissingFieldError`: the distinct error raised when a doc-string param
has no matching field in a class. -/
structure MissingFieldError where
  message : String

/-- A character of the regex character class `\s` (ASCII range). -/
def isSpaceChar (c : Char) : Bool :=
  c == ' ' || c == '\t' || c == '\n' || c == '\r' || c == '\u000B'
    || c == '\u000C'

/-- Matches `([^:]+):(.*)$` against the given characters: the first group
greedily takes every character up to the first colon (at least one), the
second group is everything after that colon. -/
def matchGroup12 (cs : List Char) : Option (String × String) :=
  let g1 := cs.takeWhile (fun c => c != ':')
  match cs.dropWhile (fun c => c != ':') with
  | ':' :: g2 => if g1.isEmpty then none else some (g1.asString, g2.asString)
  | _ => none

/-- Matches `\s+([^:]+):(.*)$` against the given characters, with the
regex engine's greedy backtracking: `\s+` first consumes as many whitespace
characters as possible and gives characters back one at a time until the
rest of the pattern matches. -/
def matchSpacesPlus : List Char → Option (String × String)
  | [] => none
  | c :: rest =>
    if isSpaceChar c then
      match matchSpacesPlus rest with
      | some r => some r
      | none => matchGroup12 rest
    else none

/-- The parameter-tag pattern `^:param\s+([^:]+):(.*)$` of
`DocstringProcessor._process_object`; on a match, returns the field name
(group 1) and the description text (group 2). -/
def matchParamTag (line : String) : Option (String × String) :=
  match line.toList with
  | ':' :: 'p' :: 'a' :: 'r' :: 'a' :: 'm' :: rest => matchSpacesPlus rest
  | _ => none

/-- `DocstringProcessor._process_object`: walk the line buffer; a line that
does not match the parameter-tag pattern is kept unchanged; a matching line
whose field name is absent from the property table raises
`MissingFieldError`; a matching line whose field is present is rewritten as
`":param {field_type} {field_name}: {text}"` with the transform's rendered
type and updated description. -/
def processObject {T : Type} (name : String) (props : List (String × T))
    (transform : T → String → String × String) :
    List String → Except MissingFieldError (List String)
  | [] => .ok []
  | line :: rest =>
    match matchParamTag line with
    | none => (processObject name props transform rest).map (fun ls => line :: ls)
    | some (field_name, text) =>
      match props.lookup field_name with
      | none => .error ⟨missingFieldMessage field_name name⟩
      | some p =>
        let ft := transform p text
        (processObject name props transform rest).map
          (fun ls => (":param " ++ ft.1 ++ " " ++ field_name ++ ": " ++ ft.2) :: ls)

/-- The fence pattern `^```(.*)$` of
`DocstringProcessor.process_codeblock`; on a match, returns the language
tag (everything after the three backticks). -/
def matchFence (line : String) : Option String :=
  match line.toList with
  | '`' :: '`' :: '`' :: rest => some rest.asString
  | _ => none

/-- `source_line.startswith("```")`: true exactly when the line begins with
three backticks, i.e. when the fence pattern matches. -/
def startsWithTicks (line : String) : Bool :=
  (matchFence line).isSome

/-- The loop of `DocstringProcessor.process_codeblock`, with the
`code_block` flag as first argument.  Outside a block, a fence line opens a
block and is replaced by the native directive and a blank line, and any
other line passes through; inside a block, a line beginning with three
backticks closes the block and is dropped, and any other line is emitted
reindented by four spaces. -/
def codeblockGo : Bool → List String → List String
  | _, [] => []
  | false, l :: rest =>
    match matchFence l with
    | some language => (".. code-block:: " ++ language) :: "" :: codeblockGo true rest
    | none => l :: codeblockGo false rest
  | true, l :: rest =>
    if startsWithTicks l then codeblockGo false rest
    else ("    " ++ l) :: codeblockGo true rest

/-- `DocstringProcessor.process_codeblock`: replaces Markdown-style fenced
code blocks with Sphinx-style code blocks. -/
def processCodeblock (lines : List String) : List String :=
  codeblockGo false lines

/-- Modelled from the spec: the per-member data consulted by `skip_member`
through the host framework's live object (`inspect.isroutine(obj)` and
`getattr(obj, "__doc__", None)`), together with the member name. -/
structure Member where
  is_routine : Bool
  name : String
  doc : Option String

/-- Python truthiness of the `__doc__` attribute: absent or empty
docstrings are falsy. -/
def docTruthy : Option String → Bool
  | none => false
  | some s => match s.toList with
    | [] => false
    | _ => true

/-- `name.startswith("_")`. -/
def startsWithUnderscore (s : String) : Bool :=
  match s.toList with
  | '_' :: _ => true
  | _ => false

/-- `name.startswith("__")`. -/
def startsWithDunder (s : String) : Bool :=
  match s.toList with
  | '_' :: '_' :: _ => true
  | _ => false

/-- `skip_member`: for a routine whose name has exactly one leading
underscore, skip (`some true`); for a routine with a truthy docstring,
include (`some false`); in every other case defer to the default
(`none`). -/
def skip_member (m : Member) : Option Bool :=
  if m.is_routine then
    if startsWithUnderscore m.name && !startsWithDunder m.name then
      some true
    else if docTruthy m.doc then
      some false
    else
      none
  else
    none

/-! ## Helper lemmas -/

/-- Substituting the members of a union is a map over the member list. -/
theorem typeTransformCallList_eq_map (table : List (String × TypeExpr)) :
    ∀ ts : List TypeExpr,
      typeTransformCallList table ts = ts.map (typeTransformCall table) := by
  intro ts
  induction ts with
  | nil => rfl
  | cons t ts ih => rw [typeTransformCallList, ih, List.map_cons]

/-- Appending a language tag to the three-backtick marker yields a line the
fence pattern matches, with exactly that language tag as group 1. -/
theorem matchFence_append (lang : String) :
    matchFence ("```" ++ lang) = some lang := by
  unfold matchFence
  rw [show ("```" ++ lang).toList = '`' :: '`' :: '`' :: lang.toList by
    rw [show ("```" ++ lang).toList = ("```" : String).data ++ lang.data from
      String.data_append _ _]; rfl]
  rfl

/-- A line formed of the three-backtick marker and trailing text starts
with three backticks. -/
theorem startsWithTicks_append (lang : String) :
    startsWithTicks ("```" ++ lang) = true := by
  rw [startsWithTicks, matchFence_append]; rfl

/-- A line that does not start with three backticks does not match the
fence pattern. -/
theorem matchFence_eq_none (l : String) (h : startsWithTicks l = false) :
    matchFence l = none := by
  rw [startsWithTicks] at h
  exact Option.not_isSome_iff_eq_none.mp (by rw [h]; exact Bool.false_ne_true)

/-- Outside a code block, a buffer with no fence marker passes through the
code-block reformatter unchanged. -/
theorem codeblockGo_pass (ls : List String)
    (h : ∀ l ∈ ls, startsWithTicks l = false) :
    codeblockGo false ls = ls := by
  induction ls with
  | nil => rfl
  | cons l ls ih =>
    rw [codeblockGo, matchFence_eq_none l (h l (List.mem_cons_self l ls)),
      ih (fun x hx => h x (List.mem_cons_of_mem l hx))]

/-- Inside an open code block, a buffer with no fence marker is absorbed
whole, each line reindented by four spaces. -/
theorem codeblockGo_absorb (ls : List String)
    (h : ∀ l ∈ ls, startsWithTicks l = false) :
    codeblockGo true ls = ls.map (fun l => "    " ++ l) := by
  induction ls with
  | nil => rfl
  | cons l ls ih =>
    rw [codeblockGo, if_neg (by
      rw [h l (List.mem_cons_self l ls)]; exact Bool.false_ne_true),
      ih (fun x hx => h x (List.mem_cons_of_mem l hx)), List.map_cons]

/-- Python truthiness: a non-empty docstring is truthy. -/
theorem docTruthy_of_ne (d : String) (h : d ≠ "") :
    docTruthy (some d) = true := by
  obtain ⟨data⟩ := d
  cases data with
  | nil => exact absurd rfl h
  | cons c cs => rfl

/-! ## Claim theorems -/

/-- C6: applying the type-substitution mapper with an empty substitution
table returns a type expression structurally identical to the input, on
every variant shape (plain, annotated, optional, union). -/
theorem claim_C6 : ∀ t : TypeExpr, typeTransformCall [] t = t := by
  intro t
  induction t using TypeExpr.rec
    (motive_2 := fun ts => typeTransformCallList [] ts = ts) with
  | plain n => simp [typeTransformCall, List.lookup]
  | annotated base metas ih => simp [typeTransformCall, List.lookup, ih]
  | optional inner ih => simp [typeTransformCall, List.lookup, ih]
  | union members ih => simp [typeTransformCall, List.lookup, ih]
  | nil => rfl
  | cons t ts ih ihs => rw [typeTransformCallList, ih, ihs]

/-- C2: for an annotated type `Annotated[X, meta]` and a substitution table
containing a mapping for `X`, the mapper returns the replacement for `X`
verbatim — without the metadata, and without re-substituting the
replacement (the table hit short-circuits all further recursion). -/
theorem claim_C2 (table : List (String × TypeExpr)) (X : TypeExpr)
    (meta : String) (metas : List String) (R : TypeExpr)
    (h : table.lookup (pythonTypeToStr X) = some R) :
    typeTransformCall table (.annotated X (meta :: metas)) = R := by
  simp [typeTransformCall, pythonTypeToStr, h]

/-- Witness for C2 at a concrete input: the table maps the canonical string
of `int` to the plain type `json`, and the annotated input is replaced by
`json` with the metadata dropped. -/
theorem claim_C2_witness :
    typeTransformCall [("int", TypeExpr.plain "json")]
      (.annotated (.plain "int") ["Doc"]) = TypeExpr.plain "json" :=
  claim_C2 _ _ _ _ _ rfl

/-- Counterexample to C3 as stated: shape preservation does not hold for
every type expression and every substitution table, because an exact table
hit replaces the whole expression verbatim.  Here the optional type
`Optional[int]` is replaced by the plain type `str`, so optionality is not
preserved. -/
theorem claim_C3_counterexample :
    typeTransformCall [("int | None", TypeExpr.plain "str")]
      (TypeExpr.optional (TypeExpr.plain "int")) = TypeExpr.plain "str" ∧
    (TypeExpr.plain "str").isOptional = false :=
  ⟨rfl, rfl⟩

/-- C3 (amended): for every type expression whose canonical string form is
not itself a key of the substitution table, rewriting preserves the variant
shape — an annotated type stays annotated with the same metadata objects,
an optional type stays optional, and a union type yields a union of the
same member count with each member substituted and member order
preserved. -/
theorem claim_C3 (table : List (String × TypeExpr)) :
    (∀ (base : TypeExpr) (metas : List String),
      table.lookup (pythonTypeToStr (TypeExpr.annotated base metas)) = none →
      typeTransformCall table (.annotated base metas)
        = .annotated (typeTransformCall table base) metas) ∧
    (∀ inner : TypeExpr,
      table.lookup (pythonTypeToStr (TypeExpr.optional inner)) = none →
      typeTransformCall table (.optional inner)
        = .optional (typeTransformCall table inner)) ∧
    (∀ members : List TypeExpr,
      table.lookup (pythonTypeToStr (TypeExpr.union members)) = none →
      typeTransformCall table (.union members)
        = .union (members.map (typeTransformCall table)) ∧
      (members.map (typeTransformCall table)).length = members.length) := by
  refine ⟨fun base metas h => ?_, fun inner h => ?_, fun members h => ?_⟩
  · simp [typeTransformCall, h]
  · simp [typeTransformCall, h]
  · exact ⟨by simp [typeTransformCall, h, typeTransformCallList_eq_map],
      List.length_map _ _⟩

/-- Witness for C3 (amended) at a concrete input: with an empty table,
`Optional[int]` stays optional. -/
theorem claim_C3_witness :
    typeTransformCall [] (TypeExpr.optional (TypeExpr.plain "int"))
      = TypeExpr.optional (typeTransformCall [] (TypeExpr.plain "int")) :=
  (claim_C3 []).2.1 _ rfl

/-- C4: the column transform on a field that is both a primary key and
nullable, with description `identifier` and field type `int`, under the
default glyph configuration, returns the description `🔑 identifier`
(primary-key glyph, one space, original text, no unique-constraint glyph)
and the rendered string of `Optional[int]` — the field type wrapped in
optional before rendering — as the type. -/
theorem claim_C4 :
    transformColumn defaultSymbols []
      ⟨TypeExpr.plain "int", true, true, false⟩ "identifier"
      = (pythonTypeToStr (TypeExpr.optional (TypeExpr.plain "int")),
          "🔑 identifier") ∧
    pythonTypeToStr (TypeExpr.optional (TypeExpr.plain "int")) = "int | None" :=
  ⟨rfl, rfl⟩

/-- Counterexample to C1 as stated: for the entity `Point` with fields
`x : int` and `y : int`, the line `:param x: the X coordinate` is rewritten
to `:param int x:  the X coordinate` — the description group of the
parameter-tag pattern keeps its leading space and the rewrite inserts
another one after the colon, so the output has two spaces, not the single
space the claim requires. -/
theorem claim_C1_counterexample :
    processObject "Point" [("x", TypeExpr.plain "int"), ("y", TypeExpr.plain "int")]
      (transformField []) [":param x: the X coordinate"]
      = .ok [":param int x:  the X coordinate"] ∧
    ":param int x:  the X coordinate" ≠ ":param int x: the X coordinate" :=
  ⟨rfl, by decide⟩

/-- C1 (amended): for the entity `Point` with field table `{x: int, y: int}`,
processing the line `:param x: the X coordinate` rewrites it to exactly
`:param int x:  the X coordinate` — tag keyword, rendered type string,
field name, colon and description in that fixed order, where the
description keeps the leading space captured by the tag pattern, so two
spaces follow the colon — and every line not matching the parameter-tag
pattern is left untouched. -/
theorem claim_C1 :
    processObject "Point" [("x", TypeExpr.plain "int"), ("y", TypeExpr.plain "int")]
      (transformField []) [":param x: the X coordinate"]
      = .ok [":param int x:  the X coordinate"] ∧
    ∀ (T : Type) (name : String) (props : List (String × T))
      (transform : T → String → String × String) (lines : List String),
      (∀ l ∈ lines, matchParamTag l = none) →
      processObject name props transform lines = .ok lines := by
  refine ⟨rfl, fun T name props transform lines h => ?_⟩
  induction lines with
  | nil => rfl
  | cons l ls ih =>
    have hl : matchParamTag l = none := h l (List.mem_cons_self l ls)
    have ihr := ih (fun x hx => h x (List.mem_cons_of_mem l hx))
    simp [processObject, hl, ihr, Except.map]

/-- Witness for C1's untouched-line clause at a concrete input: a buffer
with no parameter-tag line passes through unchanged. -/
theorem claim_C1_witness :
    processObject "Demo" ([] : List (String × TypeExpr)) (transformField [])
      ["no tags here"] = .ok ["no tags here"] :=
  claim_C1.2 TypeExpr "Demo" [] (transformField []) ["no tags here"]
    (fun l hl => by rw [List.mem_singleton] at hl; subst hl; rfl)

/-- C5: whenever a line of the buffer matches the parameter-tag pattern but
its field name is absent from the field table, and the lines before it
process without error, the processor fails with the missing-field error
whose message names both the field and the entity; the result does not
depend on the lines after the offending one, which are never processed. -/
theorem claim_C5 (T : Type) (name : String) (props : List (String × T))
    (transform : T → String → String × String) (pre : List String)
    (line : String) (rest : List String) (field_name text : String)
    (out : List String)
    (hpre : processObject name props transform pre = .ok out)
    (hline : matchParamTag line = some (field_name, text))
    (hmiss : props.lookup field_name = none) :
    processObject name props transform (pre ++ line :: rest) =
      .error ⟨missingFieldMessage field_name name⟩ := by
  induction pre generalizing out with
  | nil =>
    simp [processObject, hline, hmiss]
  | cons p ps ih =>
    rw [List.cons_append]
    cases hm : matchParamTag p with
    | none =>
      cases hps : processObject name props transform ps with
      | error e =>
        rw [processObject.eq_def] at hpre
        simp [hm, hps, Except.map] at hpre
      | ok o =>
        simp [processObject, hm, ih o hps, Except.map]
    | some ft' =>
      obtain ⟨f', t'⟩ := ft'
      cases hlk : props.lookup f' with
      | none =>
        rw [processObject.eq_def] at hpre
        simp [hm, hlk] at hpre
      | some p' =>
        cases hps : processObject name props transform ps with
        | error e =>
          rw [processObject.eq_def] at hpre
          simp [hm, hlk, hps, Except.map] at hpre
        | ok o =>
          simp [processObject, hm, hlk, ih o hps, Except.map]

/-- Witness for C5 at the concrete input of the claim: for the entity
`Point` the line `:param z: bogus` raises the missing-field error naming
`z` and `Point`. -/
theorem claim_C5_witness :
    processObject "Point" [("x", TypeExpr.plain "int"), ("y", TypeExpr.plain "int")]
      (transformField []) [":param z: bogus"]
      = .error ⟨"param `z` is not declared as a field in the class `Point`"⟩ := by
  have h := claim_C5 TypeExpr "Point"
    [("x", TypeExpr.plain "int"), ("y", TypeExpr.plain "int")]
    (transformField []) [] ":param z: bogus" [] "z" " bogus" [] rfl rfl rfl
  simpa [missingFieldMessage] using h

/-- C7: a buffer consisting of the line ```` ```python ````, one content
line `x = 1` and a closing ```` ``` ```` is rewritten to exactly the three
lines `.. code-block:: python`, an empty line, and `    x = 1` (the content
reindented by one four-space unit); a buffer with no fence line passes
through unchanged. -/
theorem claim_C7 :
    processCodeblock ["```python", "x = 1", "```"]
      = [".. code-block:: python", "", "    x = 1"] ∧
    ∀ lines : List String, (∀ l ∈ lines, startsWithTicks l = false) →
      processCodeblock lines = lines :=
  ⟨rfl, fun lines h => codeblockGo_pass lines h⟩

/-- Witness for C7's pass-through clause at a concrete input. -/
theorem claim_C7_witness :
    processCodeblock ["plain text"] = ["plain text"] :=
  claim_C7.2 ["plain text"]
    (fun l hl => by rw [List.mem_singleton] at hl; subst hl; rfl)

/-- C8: a buffer containing an opening fence with no closing marker before
the end of the buffer is processed without error — the reformatter is a
total function — emitting the native directive and a blank line, and every
remaining line of the buffer is absorbed as indented content of the
block. -/
theorem claim_C8 (pre : List String) (lang : String) (rest : List String)
    (hpre : ∀ l ∈ pre, startsWithTicks l = false)
    (hrest : ∀ l ∈ rest, startsWithTicks l = false) :
    processCodeblock (pre ++ ("```" ++ lang) :: rest)
      = pre ++ (".. code-block:: " ++ lang) :: ""
          :: rest.map (fun l => "    " ++ l) := by
  induction pre with
  | nil =>
    rw [List.nil_append, List.nil_append, processCodeblock, codeblockGo,
      matchFence_append, codeblockGo_absorb rest hrest]
  | cons p ps ih =>
    have hp : startsWithTicks p = false := hpre p (List.mem_cons_self p ps)
    have ihr := ih (fun x hx => hpre x (List.mem_cons_of_mem p hx))
    rw [List.cons_append, processCodeblock, codeblockGo,
      matchFence_eq_none p hp, List.cons_append]
    rw [processCodeblock] at ihr
    rw [ihr]

/-- Witness for C8 at a concrete input: an unterminated ```` ```python ````
fence absorbs the rest of the buffer as indented content. -/
theorem claim_C8_witness :
    processCodeblock ["```python", "x = 1"]
      = [".. code-block:: python", "", "    x = 1"] := by
  have h := claim_C8 [] "python" ["x = 1"] (by simp)
    (fun l hl => by rw [List.mem_singleton] at hl; subst hl; rfl)
  simpa using h

/-- C9: the member visibility filter decides: a routine named `__eq__` with
a non-empty description is included (`some false`); a routine named
`_helper` — exactly one leading underscore — is excluded (`some true`)
regardless of its description; a member named `__weakref__` with no
description defers to the default (`none`); and every non-routine member
defers to the default (`none`). -/
theorem claim_C9 :
    (∀ d : String, d ≠ "" →
      skip_member ⟨true, "__eq__", some d⟩ = some false) ∧
    (∀ doc : Option String, skip_member ⟨true, "_helper", doc⟩ = some true) ∧
    (∀ r : Bool, skip_member ⟨r, "__weakref__", none⟩ = none) ∧
    (∀ (name : String) (doc : Option String),
      skip_member ⟨false, name, doc⟩ = none) := by
  refine ⟨fun d hd => ?_, fun doc => rfl, fun r => ?_, fun name doc => rfl⟩
  · have h1 : startsWithUnderscore "__eq__" = true := rfl
    have h2 : startsWithDunder "__eq__" = true := rfl
    simp [skip_member, h1, h2, docTruthy_of_ne d hd]
  · cases r <;> rfl

/-- Witness for C9's included-dunder clause at a concrete input. -/
theorem claim_C9_witness :
    skip_member ⟨true, "__eq__", some "Implements equality."⟩ = some false :=
  claim_C9.1 "Implements equality." (by decide)

/-- C10: inside an open fenced block, any line that merely starts with
three backticks closes the block and is dropped entirely, its trailing
text discarded — the result is the same as processing the remaining lines
outside a block, for every trailing text; consequently no content line
beginning with three backticks can appear inside a converted block.  At a
concrete input, `x` is absorbed, the marker line ```` ```end ```` is
dropped, and `y` passes through outside the block. -/
theorem claim_C10 :
    (∀ (trailing : String) (rest : List String),
      codeblockGo true (("```" ++ trailing) :: rest) = codeblockGo false rest) ∧
    processCodeblock ["```python", "x", "```end", "y"]
      = [".. code-block:: python", "", "    x", "y"] :=
  ⟨fun trailing rest => by
    rw [codeblockGo, if_pos (by rw [startsWithTicks_append])], rfl⟩
